import Mathlib

/-!
Shallow embedding of the music-apps scheduling/sequencing core:
* `music/beat-sequencer/sequencer.js` (deterministic grid sequencer),
* the drift-corrected lookahead transport (`transport.js`, reproduced in
  `music/beat-sequencer/README.md`),
* `music/beat-sequencer/audio.js` (`playNote`),
* the metronome engine (`MetronomeEngine`), its audio (`MetronomeAudio.tickAt`)
  and the metronome `main.js` start paths.

Times and tempi are modelled as rationals (the host's float clock, drift-free
in the regime the claims speak about); JavaScript arrays of cells become
`List (Option String)` (a `null`/hole reads back as `none`); operations that
can throw return `Except String`.
-/

namespace MusicBox

/-- A playback hit collected by `stepOnce` (sequencer.js line 119). -/
structure Hit where
  row : Nat
  note : String
  soundType : String
deriving DecidableEq

/-- The three event classes emitted by the sequencer (sequencer.js lines 38-42):
`step { stepIndex, hits }`, `state { playing, stepIndex }`,
`grid { grid, notes, cols }`. -/
inductive SeqEvent where
  | step : Nat → List Hit → SeqEvent
  | state : Bool → Nat → SeqEvent
  | grid : List (List (Option String)) → List String → Nat → SeqEvent
deriving DecidableEq

/-- Internal state of `createSequencer` (sequencer.js lines 18-35).
`timer` models `timerId != null`. -/
structure SeqState where
  pentatonic : List String
  startOctave : Nat
  numOctaves : Nat
  numCols : Nat
  bpm : ℚ
  currentStep : Nat
  playing : Bool
  timer : Bool
  notes : List String
  grid : List (List (Option String))
deriving DecidableEq

/-- JavaScript truthiness of a cell value (`null`/`undefined` and `""` are falsy). -/
def jsTruthy : Option String → Bool
  | none => false
  | some s => s != ""

/-- Source `makeEmptyGrid` (sequencer.js lines 49-51). -/
def makeEmptyGrid (rows cols : Nat) : List (List (Option String)) :=
  List.replicate rows (List.replicate cols none)

/-- Source `buildNotes` (sequencer.js lines 26-32): for each octave in
`[startOctave, startOctave + numOctaves)` push one note per pentatonic letter. -/
def buildNotesFrom (pentatonic : List String) (startOctave octaves : Nat) : List String :=
  (List.range octaves).foldl
    (fun acc i => acc ++ pentatonic.map (fun n => n ++ toString (startOctave + i))) []

/-- The `createSequencer` factory's initial state (sequencer.js lines 11-35). -/
def createSequencer (pentatonic : List String) (startOctave octaves columns : Nat)
    (tempo : ℚ) : SeqState :=
  let notes := buildNotesFrom pentatonic startOctave octaves
  { pentatonic := pentatonic
    startOctave := startOctave
    numOctaves := octaves
    numCols := columns
    bpm := tempo
    currentStep := 0
    playing := false
    timer := false
    notes := notes
    grid := makeEmptyGrid notes.length columns }

/-- The default sequencer (`createSequencer` default parameters, sequencer.js
lines 11-17): pentatonic C D E G A, start octave 3, 4 octaves, 16 columns,
tempo 120. -/
def initSeq : SeqState := createSequencer ["C", "D", "E", "G", "A"] 3 4 16 120

/-- Source `stepOnce` (sequencer.js lines 114-125): collect the truthy cells of the
current column as hits, emit `step`, advance `currentStep` modulo `numCols`,
emit `state`. -/
def stepOnce (s : SeqState) : SeqState × List SeqEvent :=
  let hits := (List.range s.notes.length).filterMap (fun row =>
    match (s.grid.getD row []).getD s.currentStep none with
    | some st => if st != "" then some ⟨row, s.notes.getD row "", st⟩ else none
    | none => none)
  let s1 := { s with currentStep := (s.currentStep + 1) % s.numCols }
  (s1, [SeqEvent.step s.currentStep hits, SeqEvent.state s1.playing s1.currentStep])

/-- Source `stepOnce` iterated `n` times (state component only). -/
def stepOnceIter : Nat → SeqState → SeqState
  | 0, s => s
  | n + 1, s => stepOnceIter n (stepOnce s).1

/-- Source `toggleCell` (sequencer.js lines 107-112) with JavaScript semantics made
explicit: reading `grid[row]?.[col] ?? null` tolerates any indices, but the
write `grid[row][col] = ...` throws a `TypeError` when `row` is out of range,
and extends the row array (holes read back as `none`) when `col` is past its
end. Returns the newly stored value and the emitted events. -/
def toggleCell (s : SeqState) (row col : Nat) (soundType : String) :
    Except String (SeqState × Option String × List SeqEvent) :=
  if row < s.grid.length then
    let theRow := s.grid.getD row []
    let prev : Option String := theRow.getD col none
    let newVal : Option String := if jsTruthy prev then none else some soundType
    let newRow : List (Option String) :=
      if col < theRow.length then theRow.set col newVal
      else theRow ++ List.replicate (col - theRow.length) none ++ [newVal]
    let s1 := { s with grid := s.grid.set row newRow }
    Except.ok (s1, newVal, [SeqEvent.grid s1.grid s1.notes s1.numCols])
  else
    Except.error "TypeError: cannot set properties of undefined"

/-- The sequencer's own `stop` (sequencer.js lines 135-142): clear the playing
flag and interval timer, reset `currentStep` to 0, emit `state`. -/
def seqStop (s : SeqState) : SeqState × List SeqEvent :=
  if s.playing then
    ({ s with playing := false, timer := false, currentStep := 0 },
     [SeqEvent.state false 0])
  else (s, [])

/-- The sequencer's own `start` (sequencer.js lines 127-133): set the playing
flag, emit `state`, then install the interval timer. -/
def seqStart (s : SeqState) : SeqState × List SeqEvent :=
  if s.playing then (s, [])
  else
    ({ s with playing := true, timer := true },
     [SeqEvent.state true s.currentStep])

/-- Source `setTempo` (sequencer.js lines 75-81): store the new tempo; if playing,
stop and restart (the "restart with new interval" comment in the source). -/
def setTempo (s : SeqState) (newTempo : ℚ) : SeqState × List SeqEvent :=
  let s1 := { s with bpm := newTempo }
  if s1.playing then
    let r1 := seqStop s1
    let r2 := seqStart r1.1
    (r2.1, r1.2 ++ r2.2)
  else (s1, [])

/-- Source `setColumns` (sequencer.js lines 83-96): truncate or pad every row to the
new column count, reset `currentStep` to 0, emit `grid` and `state`. -/
def setColumns (s : SeqState) (newCols : Nat) : SeqState × List SeqEvent :=
  let grid1 := s.grid.map (fun row =>
    let next := row.take newCols
    next ++ List.replicate (newCols - next.length) none)
  let s1 := { s with numCols := newCols, grid := grid1, currentStep := 0 }
  (s1, [SeqEvent.grid grid1 s1.notes newCols, SeqEvent.state s1.playing 0])

/-- Source `setOctaves` (sequencer.js lines 98-105): rebuild the notes list and
replace the grid with a fresh empty grid, reset `currentStep` to 0, emit
`grid` and `state`. -/
def setOctaves (s : SeqState) (newOctaves : Nat) : SeqState × List SeqEvent :=
  let notes1 := buildNotesFrom s.pentatonic s.startOctave newOctaves
  let grid1 := makeEmptyGrid notes1.length s.numCols
  let s1 := { s with numOctaves := newOctaves, notes := notes1, grid := grid1,
                     currentStep := 0 }
  (s1, [SeqEvent.grid grid1 notes1 s1.numCols, SeqEvent.state s1.playing 0])

/-- Modelled from the spec: the sequencer's `reset()` operation. It is listed
in the beat-sequencer README's exposed API and called by `transport.js`
(`sequencer.reset()`), but its definition is absent from the checked-in
`sequencer.js`. Spec: "`reset()`: returns index to 0 without touching grid
contents; emits `state`." -/
def seqReset (s : SeqState) : SeqState × List SeqEvent :=
  ({ s with currentStep := 0 }, [SeqEvent.state s.playing 0])

/-! ## Transport (drift-corrected lookahead scheduler, transport.js) -/

/-- State of `createTransport` (transport.js lines 171-183). `timeout` models
`timeoutId != null`; the bound sequencer is carried inside the state. -/
structure Transport where
  playing : Bool
  timeout : Bool
  nextStepTime : ℚ
  seq : SeqState
deriving DecidableEq

/-- Source `lookaheadSec = 0.10` (transport.js line 178). -/
def lookaheadSec : ℚ := 0.10

/-- Source `stepSec` (transport.js lines 185-188): sixteenth-note duration from the
sequencer's current tempo. -/
def stepSecQ (s : SeqState) : ℚ := 60 / s.bpm / 4

/-- The `while (nextStepTime < now + lookaheadSec)` loop of `pump`
(transport.js lines 196-202): fire `stepOnce`, advance the schedule by
`stepSec()` (recomputed from the sequencer's current tempo), repeat. `target`
is `now + lookaheadSec`. Also returns how many times `stepOnce` was invoked.
The positivity hypothesis on the tempo is what makes the source loop
terminate (with `bpm ≤ 0` the JavaScript loop would never exit). -/
def pumpLoop (s : SeqState) (t target : ℚ) (h : 0 < s.bpm) : SeqState × ℚ × Nat :=
  if ht : t < target then
    let s1 := (stepOnce s).1
    let r := pumpLoop s1 (t + stepSecQ s1) target h
    (r.1, r.2.1, r.2.2 + 1)
  else (s, t, 0)
termination_by (⌈(target - t) / stepSecQ s⌉₊)
decreasing_by
  show ⌈(target - (t + stepSecQ (stepOnce s).1)) / stepSecQ (stepOnce s).1⌉₊ <
    ⌈(target - t) / stepSecQ s⌉₊
  have hss : stepSecQ (stepOnce s).1 = stepSecQ s := rfl
  rw [hss]
  have hd : 0 < stepSecQ s := by
    have h60 : (0:ℚ) < 60 := by norm_num
    exact div_pos (div_pos h60 h) (by norm_num)
  have hX : 0 < target - t := sub_pos.mpr ht
  have hkey : (target - (t + stepSecQ s)) / stepSecQ s = (target - t) / stepSecQ s - 1 := by
    rw [show target - (t + stepSecQ s) = (target - t) - stepSecQ s by ring, sub_div,
      div_self hd.ne']
  rw [hkey]
  have hy : 0 < (target - t) / stepSecQ s := div_pos hX hd
  have h1 : 1 ≤ ⌈(target - t) / stepSecQ s⌉₊ := Nat.one_le_ceil_iff.mpr hy
  have h2 : ⌈(target - t) / stepSecQ s - 1⌉₊ ≤ ⌈(target - t) / stepSecQ s⌉₊ - 1 := by
    rw [Nat.ceil_le, Nat.cast_sub h1, Nat.cast_one]
    have := Nat.le_ceil ((target - t) / stepSecQ s)
    linarith
  exact lt_of_le_of_lt h2 (Nat.sub_lt (lt_of_lt_of_le one_pos h1) one_pos)

/-- Source `pump` (transport.js lines 190-205): when playing, run the catch-up loop
against the current clock value `now` and re-arm the wake timeout; when not
playing, do nothing. Also returns the number of `stepOnce` invocations. -/
def pump (tr : Transport) (now : ℚ) (h : 0 < tr.seq.bpm) : Transport × Nat :=
  if tr.playing then
    let r := pumpLoop tr.seq tr.nextStepTime (now + lookaheadSec) h
    ({ tr with seq := r.1, nextStepTime := r.2.1, timeout := true }, r.2.2)
  else (tr, 0)

/-- Transport `stop` (transport.js lines 218-226): if playing, clear the
playing flag, cancel the pending wake timeout, and call `sequencer.reset()`. -/
def transportStop (tr : Transport) : Transport × List SeqEvent :=
  if tr.playing then
    let r := seqReset tr.seq
    ({ playing := false, timeout := false, nextStepTime := tr.nextStepTime, seq := r.1 },
     r.2)
  else (tr, [])

/-! ## Metronome engine (`MetronomeEngine`) -/

/-- State of `MetronomeEngine` (fields at the top of the class).
`intervalId` models `#intervalId != null`. -/
structure Engine where
  bpm : ℚ
  beatsPerBar : Nat
  beatIndex : Nat
  isRunning : Bool
  intervalId : Bool
  nextNoteTime : ℚ
deriving DecidableEq

/-- Source `#scheduleAheadSec = 0.12`. -/
def scheduleAheadSec : ℚ := 0.12

/-- One beat notification: the dot index, the accent flag, and the absolute
audio-clock time passed to `audio.tickAt`. -/
structure BeatEvent where
  dotIdx : Nat
  isAccent : Bool
  time : ℚ
deriving DecidableEq

/-- Source `MetronomeEngine.setBpm`. -/
def engineSetBpm (e : Engine) (bpm : ℚ) : Engine := { e with bpm := bpm }

/-- Source `MetronomeEngine.setBeatsPerBar(n, { resetPhase = true })`: store the new
cycle length; when `resetPhase`, reset `beatIndex` to 0 and, if running,
realign `nextNoteTime` to `now + 0.02`. -/
def setBeatsPerBar (e : Engine) (n : Nat) (resetPhase : Bool) (now : ℚ) : Engine :=
  let e1 := { e with beatsPerBar := n }
  if resetPhase then
    let e2 := { e1 with beatIndex := 0 }
    if e2.isRunning then { e2 with nextNoteTime := now + 0.02 } else e2
  else e1

/-- Source `MetronomeEngine.start`: no-op when already running; otherwise set the
running flag, reset `beatIndex` to 0, prime `nextNoteTime = now + 0.05`, and
install the scheduler interval. -/
def engineStart (e : Engine) (now : ℚ) : Engine :=
  if e.isRunning then e
  else { e with isRunning := true, beatIndex := 0, nextNoteTime := now + 0.05,
                intervalId := true }

/-- Source `MetronomeEngine.stop`: no-op when not running; otherwise clear the
running flag and the scheduler interval. -/
def engineStop (e : Engine) : Engine :=
  if e.isRunning then { e with isRunning := false, intervalId := false } else e

/-- Source `MetronomeEngine.#scheduleBeat(timeSec)`: compute the dot index and accent
flag, schedule the audio tick at the absolute time, notify the UI, and
advance `beatIndex` modulo `beatsPerBar`. -/
def scheduleBeat (e : Engine) (timeSec : ℚ) : Engine × BeatEvent :=
  let dotIdx := e.beatIndex % e.beatsPerBar
  let isAccent := dotIdx == 0
  ({ e with beatIndex := (e.beatIndex + 1) % e.beatsPerBar },
   { dotIdx := dotIdx, isAccent := isAccent, time := timeSec })

/-- The `while (nextNoteTime < now + scheduleAheadSec)` loop of
`MetronomeEngine.#scheduler`: schedule a beat at `nextNoteTime`, then advance
it by `60 / bpm`. Returns the beats scheduled during this wake, in order. -/
def metroLoop (e : Engine) (now : ℚ) (h : 0 < e.bpm) : Engine × List BeatEvent :=
  if hlt : e.nextNoteTime < now + scheduleAheadSec then
    let r := scheduleBeat e e.nextNoteTime
    let e1 := { r.1 with nextNoteTime := r.1.nextNoteTime + 60 / r.1.bpm }
    let rest := metroLoop e1 now h
    (rest.1, r.2 :: rest.2)
  else (e, [])
termination_by (⌈(now + scheduleAheadSec - e.nextNoteTime) / (60 / e.bpm)⌉₊)
decreasing_by
  show ⌈(now + scheduleAheadSec - ((scheduleBeat e e.nextNoteTime).1.nextNoteTime +
      60 / (scheduleBeat e e.nextNoteTime).1.bpm)) /
      (60 / (scheduleBeat e e.nextNoteTime).1.bpm)⌉₊ <
    ⌈(now + scheduleAheadSec - e.nextNoteTime) / (60 / e.bpm)⌉₊
  have hss : (scheduleBeat e e.nextNoteTime).1.bpm = e.bpm := rfl
  have hnt : (scheduleBeat e e.nextNoteTime).1.nextNoteTime = e.nextNoteTime := rfl
  rw [hss, hnt]
  have hd : 0 < 60 / e.bpm := div_pos (by norm_num) h
  have hX : 0 < now + scheduleAheadSec - e.nextNoteTime := sub_pos.mpr hlt
  have hkey : (now + scheduleAheadSec - (e.nextNoteTime + 60 / e.bpm)) / (60 / e.bpm) =
      (now + scheduleAheadSec - e.nextNoteTime) / (60 / e.bpm) - 1 := by
    rw [show now + scheduleAheadSec - (e.nextNoteTime + 60 / e.bpm) =
      (now + scheduleAheadSec - e.nextNoteTime) - 60 / e.bpm by ring, sub_div,
      div_self hd.ne']
  rw [hkey]
  have hy : 0 < (now + scheduleAheadSec - e.nextNoteTime) / (60 / e.bpm) := div_pos hX hd
  have h1 : 1 ≤ ⌈(now + scheduleAheadSec - e.nextNoteTime) / (60 / e.bpm)⌉₊ :=
    Nat.one_le_ceil_iff.mpr hy
  have h2 : ⌈(now + scheduleAheadSec - e.nextNoteTime) / (60 / e.bpm) - 1⌉₊ ≤
      ⌈(now + scheduleAheadSec - e.nextNoteTime) / (60 / e.bpm)⌉₊ - 1 := by
    rw [Nat.ceil_le, Nat.cast_sub h1, Nat.cast_one]
    have := Nat.le_ceil ((now + scheduleAheadSec - e.nextNoteTime) / (60 / e.bpm))
    linarith
  exact lt_of_le_of_lt h2 (Nat.sub_lt (lt_of_lt_of_le one_pos h1) one_pos)

/-- Source `MetronomeEngine.#scheduler`: guard every wake with the running check,
then run the catch-up loop. -/
def metroScheduler (e : Engine) (now : ℚ) (h : 0 < e.bpm) : Engine × List BeatEvent :=
  if e.isRunning then metroLoop e now h else (e, [])

/-! ## Sound emitters -/

/-- One scheduled noise-buffer source inside `MetronomeAudio.tickAt`: the
absolute start time handed to `src.start(...)` and the bandpass filter
frequency applied to the chain. -/
structure ScheduledSource where
  startAt : ℚ
  filterFreq : ℚ
deriving DecidableEq

/-- Source `MetronomeAudio.tickAt(timeSec, opts)` (MetronomeAudio.js lines 90-128):
both precomputed noise buffers (click and body) are started at exactly the
caller-supplied absolute `timeSec`; the accent only raises the click filter
frequency from 3600 to 4200. -/
def tickAt (timeSec : ℚ) (accent : Bool) : List ScheduledSource :=
  [{ startAt := timeSec, filterFreq := if accent then 4200 else 3600 },
   { startAt := timeSec, filterFreq := 1200 }]

/-- Source `rowStaggerSec = 0.001` (audio.js line 10). -/
def rowStaggerSec : ℚ := 0.001

/-- Source `releaseSec = 0.25` (audio.js line 9). -/
def releaseSec : ℚ := 0.25

/-- Source `playNote({ note, type, rowIndex })` (audio.js lines 33-64), reduced to its
scheduling contract: `startAt = ctx.currentTime + rowIndex * rowStaggerSec`
and `stopAt = startAt + releaseSec`. The emitter's own clock value `now` is
read inside the call; the caller supplies no time at all. -/
def playNote (now : ℚ) (rowIndex : Nat) : ℚ × ℚ :=
  let startAt := now + rowIndex * rowStaggerSec
  (startAt, startAt + releaseSec)

/-! ## Metronome main.js start paths -/

/-- Source `MetronomeAudio.ensureStarted`, abstracted over the host's answer to the
`ctx.resume()` request: `resumeOk = false` models a rejected resume (e.g.
autoplay policy). -/
def ensureStarted (resumeOk : Bool) : Except String Unit :=
  if resumeOk then Except.ok () else Except.error "resume failed"

/-- The click start path (metronome main.js lines 157-163):
`await audio.ensureStarted(); engine.start(); ui.setRunning(true)`. A rejected
resume aborts before `engine.start()` and surfaces the error; the UI running
flag is returned alongside. -/
def startClick (resumeOk : Bool) (e : Engine) (uiRunning : Bool) (now : ℚ) :
    Engine × Bool × Except String Unit :=
  match ensureStarted resumeOk with
  | Except.error msg => (e, uiRunning, Except.error msg)
  | Except.ok _ => (engineStart e now, true, Except.ok ())

/-- The keyboard start path (`startFromKey`, metronome main.js variant):
`void audio.ensureStarted(); engine.start(); ui.setRunning(true)` — the
resume promise is deliberately not awaited, so the engine starts regardless
of the resume outcome. -/
def startFromKey (resumeOk : Bool) (e : Engine) (uiRunning : Bool) (now : ℚ) :
    Engine × Bool × Except String Unit :=
  let _ := ensureStarted resumeOk
  let _ := uiRunning
  (engineStart e now, true, Except.ok ())

/-! ## Concrete states used by witnesses and counterexamples -/

/-- A small sequencer: one pentatonic letter, one octave, four columns. -/
def smallSeq : SeqState := createSequencer ["C"] 3 1 4 120

/-- The small sequencer, started (its own transport) and stepped three times:
a playing state whose playhead sits at column 3. -/
def sPlay : SeqState := stepOnceIter 3 (seqStart smallSeq).1

/-- The small sequencer with cell (0, 0) toggled to "sine". -/
def sCell : SeqState :=
  match toggleCell smallSeq 0 0 "sine" with
  | Except.ok r => r.1
  | Except.error _ => smallSeq

/-- The result of toggling the default 20-row / 16-column sequencer at the
out-of-range column 16. -/
def togRes : Except String (SeqState × Option String × List SeqEvent) :=
  toggleCell initSeq 0 16 "sine"

/-- A playing transport over the small sequencer, with the next step scheduled
at clock time 0. -/
def trPlay : Transport :=
  { playing := true, timeout := true, nextStepTime := 0, seq := (seqStart smallSeq).1 }

/-- A running metronome engine mid-bar (dot 1 of 4). -/
def eRun : Engine :=
  { bpm := 120, beatsPerBar := 4, beatIndex := 1, isRunning := true,
    intervalId := true, nextNoteTime := 10 }

/-- A stopped metronome engine that last halted on beat 2. -/
def eStop : Engine :=
  { bpm := 120, beatsPerBar := 4, beatIndex := 2, isRunning := false,
    intervalId := false, nextNoteTime := 10 }

/-! ## Helper lemmas -/

theorem stepOnce_numCols (s : SeqState) : (stepOnce s).1.numCols = s.numCols := rfl

theorem stepOnce_currentStep (s : SeqState) :
    (stepOnce s).1.currentStep = (s.currentStep + 1) % s.numCols := rfl

theorem stepOnceIter_numCols (n : Nat) : ∀ s : SeqState,
    (stepOnceIter n s).numCols = s.numCols := by
  induction n with
  | zero => intro s; rfl
  | succ n ih => intro s; rw [stepOnceIter, ih, stepOnce_numCols]

theorem stepOnceIter_currentStep (n : Nat) : ∀ s : SeqState,
    s.currentStep < s.numCols →
    (stepOnceIter n s).currentStep = (s.currentStep + n) % s.numCols := by
  induction n with
  | zero => intro s hs; rw [stepOnceIter, Nat.add_zero, Nat.mod_eq_of_lt hs]
  | succ n ih =>
    intro s hs
    have hC : 0 < s.numCols := by omega
    rw [stepOnceIter]
    have hs1 : (stepOnce s).1.currentStep < (stepOnce s).1.numCols := by
      rw [stepOnce_currentStep, stepOnce_numCols]
      exact Nat.mod_lt _ hC
    rw [ih _ hs1, stepOnce_currentStep, stepOnce_numCols, Nat.mod_add_mod]
    congr 1
    omega

/-- For a positive rational, the natural ceiling drops by exactly one when the
argument drops by one. -/
theorem natCeil_pred {y : ℚ} {n : Nat} (hc : ⌈y⌉₊ = n + 1) :
    ⌈y - 1⌉₊ = n := by
  have hiff := (Nat.ceil_eq_iff (α := ℚ) (Nat.succ_ne_zero n)).mp hc
  rcases hiff with ⟨hlo, hhi⟩
  rcases Nat.eq_zero_or_pos n with hn0 | hnpos
  · subst hn0
    refine Nat.ceil_eq_zero.mpr ?_
    have : y ≤ 1 := by simpa using hhi
    linarith
  · refine (Nat.ceil_eq_iff (Nat.pos_iff_ne_zero.mp hnpos)).mpr ⟨?_, ?_⟩
    · have hcast : ((n - 1 : Nat) : ℚ) = (n : ℚ) - 1 := by
        rw [Nat.cast_sub hnpos, Nat.cast_one]
      rw [hcast]
      have : ((n + 1 - 1 : Nat) : ℚ) < y := by exact_mod_cast hlo
      simp only [Nat.add_sub_cancel] at this
      linarith
    · have : y ≤ ((n + 1 : Nat) : ℚ) := by exact_mod_cast hhi
      push_cast at this ⊢
      linarith

theorem stepOnce_bpm (s : SeqState) : (stepOnce s).1.bpm = s.bpm := rfl

theorem stepSecQ_pos {s : SeqState} (h : 0 < s.bpm) : 0 < stepSecQ s :=
  div_pos (div_pos (by norm_num) h) (by norm_num)

/-- Closed form of the transport's catch-up loop: with a positive tempo, the
loop runs exactly `⌈(target − t) / stepSec⌉₊` iterations, each one invoking
`stepOnce` once and advancing the schedule by one step duration. -/
theorem pumpLoop_eq (n : Nat) : ∀ (s : SeqState) (t target : ℚ) (h : 0 < s.bpm),
    ⌈(target - t) / stepSecQ s⌉₊ = n →
    pumpLoop s t target h = (stepOnceIter n s, t + n * stepSecQ s, n) := by
  induction n with
  | zero =>
    intro s t target h hc
    have hd : 0 < stepSecQ s := stepSecQ_pos h
    have hle : (target - t) / stepSecQ s ≤ 0 := Nat.ceil_eq_zero.mp hc
    have hts : ¬ t < target := by
      intro hlt
      have : 0 < (target - t) / stepSecQ s := div_pos (sub_pos.mpr hlt) hd
      linarith
    rw [pumpLoop, dif_neg hts]
    simp [stepOnceIter]
  | succ n ih =>
    intro s t target h hc
    have hd : 0 < stepSecQ s := stepSecQ_pos h
    have hy : 0 < (target - t) / stepSecQ s := by
      by_contra hcon
      push_neg at hcon
      rw [Nat.ceil_eq_zero.mpr hcon] at hc
      exact Nat.succ_ne_zero n hc.symm
    have hts : t < target := by
      have hX : 0 < target - t := by
        by_contra hcon
        push_neg at hcon
        have : (target - t) / stepSecQ s ≤ 0 := div_nonpos_of_nonpos_of_nonneg hcon hd.le
        linarith
      linarith
    have hkey : (target - (t + stepSecQ s)) / stepSecQ s =
        (target - t) / stepSecQ s - 1 := by
      rw [show target - (t + stepSecQ s) = (target - t) - stepSecQ s by ring, sub_div,
        div_self hd.ne']
    have hc1 : ⌈(target - (t + stepSecQ (stepOnce s).1)) / stepSecQ (stepOnce s).1⌉₊ = n := by
      have hss : stepSecQ (stepOnce s).1 = stepSecQ s := rfl
      rw [hss, hkey]
      exact natCeil_pred hc
    have hrec := ih (stepOnce s).1 (t + stepSecQ (stepOnce s).1) target h hc1
    rw [pumpLoop, dif_pos hts]
    show ((pumpLoop (stepOnce s).1 (t + stepSecQ (stepOnce s).1) target h).1,
          (pumpLoop (stepOnce s).1 (t + stepSecQ (stepOnce s).1) target h).2.1,
          (pumpLoop (stepOnce s).1 (t + stepSecQ (stepOnce s).1) target h).2.2 + 1) =
        (stepOnceIter (n + 1) s, t + ((n + 1 : Nat) : ℚ) * stepSecQ s, (n + 1 : Nat))
    rw [hrec]
    show (stepOnceIter n (stepOnce s).1,
          t + stepSecQ s + (n : ℚ) * stepSecQ s, (n : Nat) + 1) =
        (stepOnceIter (n + 1) s, t + ((n + 1 : Nat) : ℚ) * stepSecQ s, (n + 1 : Nat))
    simp only [Prod.mk.injEq]
    refine ⟨rfl, ?_, trivial⟩
    push_cast
    ring

/-! ## Claims -/

/-- C2: for every sequencer whose column count is at least 1 and whose playhead
is in range (as every reachable state is), calling `stepOnce` once per column
returns `stepIndex` to its original value, and after any finite number of
`stepOnce` calls `stepIndex` stays in `[0, numCols)`. -/
theorem stepOnce_wraparound (s : SeqState) (hC : 1 ≤ s.numCols)
    (hi : s.currentStep < s.numCols) :
    (stepOnceIter s.numCols s).currentStep = s.currentStep ∧
    ∀ n : Nat, (stepOnceIter n s).currentStep < s.numCols := by
  constructor
  · rw [stepOnceIter_currentStep _ s hi, Nat.add_mod_right, Nat.mod_eq_of_lt hi]
  · intro n
    rw [stepOnceIter_currentStep n s hi]
    exact Nat.mod_lt _ hC

theorem stepOnce_wraparound_witness :
    (1 ≤ sPlay.numCols ∧ sPlay.currentStep < sPlay.numCols) ∧
    ((stepOnceIter sPlay.numCols sPlay).currentStep = sPlay.currentStep ∧
      ∀ n : Nat, (stepOnceIter n sPlay).currentStep < sPlay.numCols) :=
  ⟨⟨by decide, by decide⟩, stepOnce_wraparound sPlay (by decide) (by decide)⟩

/-- C4 (code bug): `toggleCell` with indices outside the current bounds is not
a silent no-op. On the default 20-row / 16-column sequencer, row 20 makes the
write `grid[row][col] = ...` throw a TypeError, and column 16 extends row 0 to
17 entries and returns the stored kind as if a change occurred. -/
theorem toggleCell_oob_behavior :
    toggleCell initSeq 20 0 "sine" = Except.error "TypeError: cannot set properties of undefined" ∧
    togRes.toOption.map (fun r => ((r.1.grid.getD 0 []).length, r.2.1)) =
      some (17, some "sine") := by
  constructor
  · rfl
  · rfl

/-- C5 counterexample: on a playing sequencer whose playhead is at column 3,
`setTempo` resets the playhead to 0 and emits events, contradicting the claim
that tempo changes touch nothing but the stored tempo in every state. -/
theorem setTempo_not_pure_cex :
    sPlay.playing = true ∧ sPlay.currentStep = 3 ∧
    (setTempo sPlay 140).1.currentStep ≠ sPlay.currentStep ∧
    (setTempo sPlay 140).2 ≠ [] := by
  refine ⟨rfl, rfl, ?_, ?_⟩ <;> decide

/-- C5 amended: `setTempo` is a pure data mutation only while the sequencer is
stopped. While its own transport is playing, the source restarts playback
("restart with new interval"): the playhead resets to 0, the interval timer is
re-armed, and two `state` events are emitted; grid, notes and the playing flag
are left unchanged. -/
theorem setTempo_amended (s : SeqState) (t : ℚ) :
    (s.playing = false → setTempo s t = ({ s with bpm := t }, [])) ∧
    (s.playing = true →
      (setTempo s t).1 =
        { s with bpm := t, currentStep := 0, playing := true, timer := true } ∧
      (setTempo s t).2 = [SeqEvent.state false 0, SeqEvent.state true 0]) := by
  constructor
  · intro hp
    rw [setTempo]
    simp [hp]
  · intro hp
    rw [setTempo]
    simp only [hp, if_true]
    rw [seqStop]
    simp only [hp, if_true]
    rw [seqStart]
    simp

theorem setTempo_amended_witness :
    (smallSeq.playing = false ∧
      setTempo smallSeq 140 = ({ smallSeq with bpm := 140 }, [])) ∧
    (sPlay.playing = true ∧
      (setTempo sPlay 140).1 =
        { sPlay with bpm := 140, currentStep := 0, playing := true, timer := true } ∧
      (setTempo sPlay 140).2 = [SeqEvent.state false 0, SeqEvent.state true 0]) :=
  ⟨⟨rfl, (setTempo_amended smallSeq 140).1 rfl⟩,
   ⟨rfl, (setTempo_amended sPlay 140).2 rfl⟩⟩

/-- C1: while the transport is running, each `pump` wake catches up completely:
for every clock value `now` (however far it jumped), `stepOnce` is invoked
exactly `⌈(now + lookaheadSec − nextStepTime) / stepDuration⌉₊` times (zero
when already ahead, since the natural ceiling of a non-positive rational is
zero), `nextStepTime` advances by one step duration per step, and afterwards
`nextStepTime` is at least `now + lookaheadSec`, hence never behind the clock
by more than the lookahead window. -/
theorem pump_catchup (tr : Transport) (now : ℚ) (hp : tr.playing = true)
    (hb : 0 < tr.seq.bpm) :
    (pump tr now hb).2 =
      ⌈(now + lookaheadSec - tr.nextStepTime) / stepSecQ tr.seq⌉₊ ∧
    (pump tr now hb).1.seq =
      stepOnceIter ⌈(now + lookaheadSec - tr.nextStepTime) / stepSecQ tr.seq⌉₊ tr.seq ∧
    (pump tr now hb).1.nextStepTime = tr.nextStepTime +
      (⌈(now + lookaheadSec - tr.nextStepTime) / stepSecQ tr.seq⌉₊ : ℚ) * stepSecQ tr.seq ∧
    now + lookaheadSec ≤ (pump tr now hb).1.nextStepTime := by
  have hd : 0 < stepSecQ tr.seq := stepSecQ_pos hb
  have hloop := pumpLoop_eq ⌈(now + lookaheadSec - tr.nextStepTime) / stepSecQ tr.seq⌉₊
    tr.seq tr.nextStepTime (now + lookaheadSec) hb rfl
  have hpump : pump tr now hb =
      ({ tr with
          seq := stepOnceIter ⌈(now + lookaheadSec - tr.nextStepTime) / stepSecQ tr.seq⌉₊ tr.seq,
          nextStepTime := tr.nextStepTime +
            (⌈(now + lookaheadSec - tr.nextStepTime) / stepSecQ tr.seq⌉₊ : ℚ) * stepSecQ tr.seq,
          timeout := true },
        ⌈(now + lookaheadSec - tr.nextStepTime) / stepSecQ tr.seq⌉₊) := by
    unfold pump
    rw [if_pos hp]
    show ({ tr with
            seq := (pumpLoop tr.seq tr.nextStepTime (now + lookaheadSec) hb).1,
            nextStepTime := (pumpLoop tr.seq tr.nextStepTime (now + lookaheadSec) hb).2.1,
            timeout := true },
          (pumpLoop tr.seq tr.nextStepTime (now + lookaheadSec) hb).2.2) = _
    rw [hloop]
  refine ⟨by rw [hpump], by rw [hpump], by rw [hpump], ?_⟩
  rw [hpump]
  show now + lookaheadSec ≤ tr.nextStepTime +
    (⌈(now + lookaheadSec - tr.nextStepTime) / stepSecQ tr.seq⌉₊ : ℚ) * stepSecQ tr.seq
  rcases le_or_lt (now + lookaheadSec) tr.nextStepTime with hle | hlt
  · have hnn : (0:ℚ) ≤
        (⌈(now + lookaheadSec - tr.nextStepTime) / stepSecQ tr.seq⌉₊ : ℚ) * stepSecQ tr.seq :=
      mul_nonneg (Nat.cast_nonneg _) hd.le
    linarith
  · have h1 : (now + lookaheadSec - tr.nextStepTime) / stepSecQ tr.seq ≤
        (⌈(now + lookaheadSec - tr.nextStepTime) / stepSecQ tr.seq⌉₊ : ℚ) := Nat.le_ceil _
    rw [div_le_iff₀ hd] at h1
    linarith

theorem trPlay_bpm_pos : (0:ℚ) < trPlay.seq.bpm := by
  show (0:ℚ) < 120
  norm_num

theorem pump_catchup_witness :
    trPlay.playing = true ∧ (0:ℚ) < trPlay.seq.bpm ∧
    ((pump trPlay 1 trPlay_bpm_pos).2 =
        ⌈(1 + lookaheadSec - trPlay.nextStepTime) / stepSecQ trPlay.seq⌉₊ ∧
      (pump trPlay 1 trPlay_bpm_pos).1.seq =
        stepOnceIter ⌈(1 + lookaheadSec - trPlay.nextStepTime) / stepSecQ trPlay.seq⌉₊
          trPlay.seq ∧
      (pump trPlay 1 trPlay_bpm_pos).1.nextStepTime = trPlay.nextStepTime +
        (⌈(1 + lookaheadSec - trPlay.nextStepTime) / stepSecQ trPlay.seq⌉₊ : ℚ) *
          stepSecQ trPlay.seq ∧
      1 + lookaheadSec ≤ (pump trPlay 1 trPlay_bpm_pos).1.nextStepTime) :=
  ⟨rfl, trPlay_bpm_pos, pump_catchup trPlay 1 rfl trPlay_bpm_pos⟩

/-- C3 (with `reset()` modelled from the spec, see `seqReset`): stopping a
playing transport clears the playing flag, cancels the pending wake timeout,
and calls the sequencer's `reset()`, which returns the playhead to 0 without
touching grid contents and emits one `state` event; no error is raised. -/
theorem transport_stop_spec (tr : Transport) (hp : tr.playing = true) :
    (transportStop tr).1.playing = false ∧
    (transportStop tr).1.timeout = false ∧
    (transportStop tr).1.seq.currentStep = 0 ∧
    (transportStop tr).1.seq.grid = tr.seq.grid ∧
    (transportStop tr).2 = [SeqEvent.state tr.seq.playing 0] := by
  unfold transportStop
  rw [if_pos hp]
  exact ⟨rfl, rfl, rfl, rfl, rfl⟩

theorem transport_stop_spec_witness :
    trPlay.playing = true ∧
    ((transportStop trPlay).1.playing = false ∧
      (transportStop trPlay).1.timeout = false ∧
      (transportStop trPlay).1.seq.currentStep = 0 ∧
      (transportStop trPlay).1.seq.grid = trPlay.seq.grid ∧
      (transportStop trPlay).2 = [SeqEvent.state trPlay.seq.playing 0]) :=
  ⟨rfl, transport_stop_spec trPlay rfl⟩

theorem setColumns_grid (s : SeqState) (n : Nat) :
    (setColumns s n).1.grid = s.grid.map (fun row =>
      row.take n ++ List.replicate (n - (row.take n).length) none) := rfl

theorem setOctaves_grid (s : SeqState) (k : Nat) :
    (setOctaves s k).1.grid =
      makeEmptyGrid (buildNotesFrom s.pentatonic s.startOctave k).length s.numCols := rfl

/-- C6 counterexample: `setOctaves` with the unchanged octave count keeps the
grid dimensions, so cell (0, 0) exists both before and after the resize —
yet its value "sine" is lost, because `setOctaves` rebuilds the grid empty. -/
theorem setOctaves_clears_cex :
    (sCell.grid.getD 0 []).getD 0 none = some "sine" ∧
    (setOctaves sCell 1).1.grid.length = sCell.grid.length ∧
    ((setOctaves sCell 1).1.grid.getD 0 []).length = (sCell.grid.getD 0 []).length ∧
    ((setOctaves sCell 1).1.grid.getD 0 []).getD 0 none = none := by
  refine ⟨?_, ?_, ?_, ?_⟩ <;> decide

/-- C6 amended: `setColumns` preserves every overlapping cell (any cell with
a column index below both the new count and its row's current length), while
`setOctaves` discards all cell data: after it, every cell of the grid is
empty. -/
theorem resize_overlap_amended (s : SeqState) (n r c : Nat)
    (hcn : c < n) (hcl : c < (s.grid.getD r []).length) :
    ((setColumns s n).1.grid.getD r []).getD c none = (s.grid.getD r []).getD c none ∧
    ∀ k r2 c2 : Nat, ((setOctaves s k).1.grid.getD r2 []).getD c2 none = none := by
  constructor
  · have hr : r < s.grid.length := by
      by_contra hcon
      push_neg at hcon
      have hnone : s.grid[r]? = none := List.getElem?_eq_none hcon
      rw [List.getD_eq_getElem?_getD, hnone] at hcl
      simp at hcl
    have hgr : s.grid[r]? = some (s.grid.getD r []) := by
      rw [List.getD_eq_getElem?_getD, List.getElem?_eq_getElem hr]
      rfl
    have hc2 : c < ((s.grid.getD r []).take n).length := by
      rw [List.length_take]
      omega
    have hmap : ((s.grid.map (fun row =>
        row.take n ++ List.replicate (n - (row.take n).length) none)).getD r []) =
        (s.grid.getD r []).take n ++
          List.replicate (n - ((s.grid.getD r []).take n).length) none := by
      rw [List.getD_eq_getElem?_getD, List.getElem?_map, hgr]
      rfl
    rw [setColumns_grid, hmap, List.getD_eq_getElem?_getD,
      List.getElem?_append_left hc2, List.getElem?_take_of_lt hcn,
      List.getD_eq_getElem?_getD, List.getD_eq_getElem?_getD]
  · intro k r2 c2
    rw [setOctaves_grid]
    unfold makeEmptyGrid
    by_cases h2 : r2 < (buildNotesFrom s.pentatonic s.startOctave k).length
    · have hrow : ((List.replicate (buildNotesFrom s.pentatonic s.startOctave k).length
          (List.replicate s.numCols (none : Option String))).getD r2 []) =
          List.replicate s.numCols (none : Option String) := by
        rw [List.getD_eq_getElem?_getD, List.getElem?_replicate, if_pos h2]
        rfl
      rw [hrow, List.getD_eq_getElem?_getD, List.getElem?_replicate]
      by_cases h3 : c2 < s.numCols
      · rw [if_pos h3]
        rfl
      · rw [if_neg h3]
        rfl
    · have hrow : ((List.replicate (buildNotesFrom s.pentatonic s.startOctave k).length
          (List.replicate s.numCols (none : Option String))).getD r2 []) = [] := by
        rw [List.getD_eq_getElem?_getD, List.getElem?_replicate, if_neg h2]
        rfl
      rw [hrow]
      rfl

theorem resize_overlap_amended_witness :
    ((0:Nat) < 4 ∧ (0:Nat) < (sCell.grid.getD 0 []).length) ∧
    (((setColumns sCell 4).1.grid.getD 0 []).getD 0 none =
        (sCell.grid.getD 0 []).getD 0 none ∧
      ∀ k r2 c2 : Nat, ((setOctaves sCell k).1.grid.getD r2 []).getD c2 none = none) :=
  ⟨⟨by decide, by decide⟩, resize_overlap_amended sCell 4 0 0 (by decide) (by decide)⟩

/-- C7 counterexample: `setBeatsPerBar` called with `resetPhase: false` — an
argument combination the public signature accepts — leaves a running engine's
`beatIndex` at 1, not 0. -/
theorem setBeatsPerBar_no_reset_cex :
    (setBeatsPerBar eRun 4 false 10).beatIndex ≠ 0 := by decide

/-- C7 amended: `setColumns` and `setOctaves` always reset the playhead to 0;
`setBeatsPerBar` resets `beatIndex` to 0 whenever `resetPhase` is true (the
default, and what every caller in the app passes), and leaves it unchanged
when `resetPhase` is false. -/
theorem structural_reset_amended (s : SeqState) (n : Nat) (e : Engine) (m : Nat)
    (now : ℚ) :
    (setColumns s n).1.currentStep = 0 ∧
    (setOctaves s n).1.currentStep = 0 ∧
    (setBeatsPerBar e m true now).beatIndex = 0 ∧
    (setBeatsPerBar e m false now).beatIndex = e.beatIndex := by
  refine ⟨rfl, rfl, ?_, rfl⟩
  unfold setBeatsPerBar
  by_cases hr : e.isRunning <;> simp [hr]

/-- C8 counterexample: when the audio resource cannot be resumed
(`ensureStarted` fails), the keyboard start path still puts the engine into
the running state, because it deliberately does not await the resume. -/
theorem startFromKey_runs_despite_failure_cex :
    ensureStarted false = Except.error "resume failed" ∧
    (startFromKey false eStop false 0).1.isRunning = true :=
  ⟨rfl, rfl⟩

/-- C8 amended: on the click/button start path a failed resume aborts before
`engine.start()` — the engine and UI state are untouched and the error is
surfaced to the caller — while the keyboard start path (which intentionally
does not await the resume, to preserve the gesture context) starts the engine
regardless of the resume outcome. -/
theorem start_paths_amended (e : Engine) (ui : Bool) (now : ℚ) :
    startClick false e ui now = (e, ui, Except.error "resume failed") ∧
    (startClick true e ui now).2.2 = Except.ok () ∧
    (startClick true e ui now).1.isRunning = true ∧
    (startFromKey false e ui now).1.isRunning = true := by
  refine ⟨rfl, rfl, ?_, ?_⟩ <;>
  · show (engineStart e now).isRunning = true
    unfold engineStart
    by_cases hr : e.isRunning
    · rw [if_pos hr]
      exact hr
    · rw [if_neg hr]

/-- C9 counterexample: the beat-sequencer emitter's `playNote` takes no time
argument; with identical caller arguments (`rowIndex = 0`) its scheduled start
equals whatever the emitter's own clock reads at call time — 0 in one call,
1 in the other — so it schedules relative to "now", not at a caller-supplied
absolute time. -/
theorem playNote_schedules_relative_cex :
    (playNote 0 0).1 = 0 ∧ (playNote 1 0).1 = 1 ∧
    (playNote 0 0).1 ≠ (playNote 1 0).1 := by
  refine ⟨?_, ?_, ?_⟩ <;> norm_num [playNote, rowStaggerSec]

/-- C9 amended: the metronome emitter (`tickAt`) starts both of its noise
sources exactly at the caller-supplied absolute clock time, but the
beat-sequencer emitter (`playNote`) schedules relative to the emitter's own
current time: start = now + rowIndex · rowStaggerSec. -/
theorem emitter_scheduling_amended (t : ℚ) (accent : Bool) (now : ℚ) (rowIndex : Nat) :
    (tickAt t accent).map ScheduledSource.startAt = [t, t] ∧
    (playNote now rowIndex).1 = now + rowIndex * rowStaggerSec :=
  ⟨rfl, rfl⟩

/-- C10: starting a stopped metronome engine resets `beatIndex` to 0, so the
first beat scheduled by the next scheduler wake (here: a wake that fires at
least one beat) carries dot index 0 and the accent flag — playback always
begins on the accented beat, wherever the previous run stopped. -/
theorem start_resets_accent (e : Engine) (now now2 : ℚ) (hrun : e.isRunning = false)
    (hb : 0 < (engineStart e now).bpm)
    (hfire : now + 0.05 < now2 + scheduleAheadSec) :
    (engineStart e now).beatIndex = 0 ∧
    (metroScheduler (engineStart e now) now2 hb).2.head? =
      some { dotIdx := 0, isAccent := true, time := now + 0.05 } := by
  have he : engineStart e now =
      { e with isRunning := true, beatIndex := 0, nextNoteTime := now + 0.05,
               intervalId := true } := by
    unfold engineStart
    rw [if_neg]
    rw [hrun]
    simp
  have hrun2 : (engineStart e now).isRunning = true := by rw [he]
  have hnt : (engineStart e now).nextNoteTime = now + 0.05 := by rw [he]
  have hbeat : (engineStart e now).beatIndex = 0 := by rw [he]
  refine ⟨hbeat, ?_⟩
  unfold metroScheduler
  rw [if_pos hrun2]
  rw [metroLoop, dif_pos (show (engineStart e now).nextNoteTime <
    now2 + scheduleAheadSec by rw [hnt]; exact hfire)]
  simp only [List.head?_cons]
  unfold scheduleBeat
  simp only [hbeat, hnt, Nat.zero_mod, Option.some.injEq]
  rfl

theorem eStart_bpm_pos : (0:ℚ) < (engineStart eStop 0).bpm := by
  show (0:ℚ) < 120
  norm_num

theorem eStart_fires : (0:ℚ) + 0.05 < 0 + scheduleAheadSec := by
  norm_num [scheduleAheadSec]

theorem start_resets_accent_witness :
    (eStop.isRunning = false ∧ (0:ℚ) < (engineStart eStop 0).bpm ∧
      (0:ℚ) + 0.05 < 0 + scheduleAheadSec) ∧
    ((engineStart eStop 0).beatIndex = 0 ∧
      (metroScheduler (engineStart eStop 0) 0 eStart_bpm_pos).2.head? =
        some { dotIdx := 0, isAccent := true, time := (0:ℚ) + 0.05 }) :=
  ⟨⟨rfl, eStart_bpm_pos, eStart_fires⟩,
   start_resets_accent eStop 0 0 rfl eStart_bpm_pos eStart_fires⟩

end MusicBox
